import Mathlib

/-!
Verification development for the softadastra-net HTTP example application.

The repository's visible source is a single example program (`src/main.cpp`)
that registers one route on an `App` from the `vix` framework and starts a
blocking server.  The framework implementation itself is not part of the
repository, so the router, request parser, response builder, JSON encoder and
connection dispatch below are modelled from the repository's specification
(spec.md sections 3, 4, 6 and 7), while the example program's route table and
handler are translated from `src/main.cpp`.

All computation is carried out over `List Char` with structural recursion so
that every definition evaluates inside the kernel on concrete inputs.
-/

namespace Vix

/-! ## Character and list helpers -/

/-- Lower-case a single ASCII letter, leaving every other character alone. -/
def toLowerChar (c : Char) : Char :=
  if 'A' ≤ c ∧ c ≤ 'Z' then Char.ofNat (c.toNat + 32) else c

/-- Lower-case an ASCII character list (used for case-insensitive header keys). -/
def lowerList (cs : List Char) : List Char := cs.map toLowerChar

/-- True for the blank characters stripped around header values. -/
def isBlankChar (c : Char) : Bool := c = ' ' || c = '\t'

/-- Strip leading and trailing blanks from a character list. -/
def trimList (cs : List Char) : List Char :=
  ((cs.dropWhile isBlankChar).reverse.dropWhile isBlankChar).reverse

/-- Split a list at the first occurrence of the character `c`: returns the
part strictly before and the part strictly after it, or `none` when `c` does
not occur. -/
def splitAtFirst (c : Char) : List Char → Option (List Char × List Char)
  | [] => none
  | x :: rest =>
    if x = c then some ([], rest)
    else (splitAtFirst c rest).map (fun ab => (x :: ab.1, ab.2))

/-- Split a list at every occurrence of the character `c`. -/
def splitAllChar (c : Char) : List Char → List (List Char)
  | [] => [[]]
  | x :: rest =>
    if x = c then [] :: splitAllChar c rest
    else
      match splitAllChar c rest with
      | [] => [[x]]
      | h :: t => (x :: h) :: t

/-- Split a character stream into lines separated by CRLF pairs. -/
def splitCRLF : List Char → List (List Char)
  | '\r' :: '\n' :: rest => [] :: splitCRLF rest
  | c :: rest =>
    match splitCRLF rest with
    | [] => [[c]]
    | h :: t => (c :: h) :: t
  | [] => [[]]

/-- Split an HTTP message at the first blank line (the `CRLF CRLF` header
terminator): returns the header section and the remaining bytes, or `none`
when the terminator never occurs. -/
def splitHeaderBody : List Char → Option (List Char × List Char)
  | '\r' :: '\n' :: '\r' :: '\n' :: rest => some ([], rest)
  | c :: rest => (splitHeaderBody rest).map (fun ab => (c :: ab.1, ab.2))
  | [] => none

/-- Parse a non-empty all-digit character list as a natural number. -/
def parseNatDigits (cs : List Char) : Option Nat :=
  if cs ≠ [] ∧ cs.all Char.isDigit then
    some (cs.foldl (fun acc c => acc * 10 + (c.toNat - 48)) 0)
  else none

/-- Number of UTF-8 bytes needed for a string (the spec counts body length in
bytes). -/
def utf8Length (s : String) : Nat :=
  s.data.foldl (fun n c => n + c.utf8Size) 0

/-- Join character-list chunks with a separator between consecutive chunks. -/
def joinSep (sep : List Char) : List (List Char) → List Char
  | [] => []
  | [x] => x
  | x :: y :: rest => x ++ sep ++ joinSep sep (y :: rest)

/-! ## JSON values and encoder

Modelled from the spec: the repository contains no framework sources, so the
JSON value type and encoder are taken from spec.md section 3 ("JSON Value:
tagged variant over null, bool, number, string, array, object with ordered
keys") and section 4.3 (encoder rules). -/

/-- Modelled from the spec: a JSON value, a tagged variant whose object
variant keeps its fields in insertion order. -/
inductive JsonValue where
  | null
  | bool (b : Bool)
  | num (n : Int)
  | str (s : String)
  | arr (xs : List JsonValue)
  | obj (fields : List (String × JsonValue))

/-- The four hexadecimal digits of a code point below 0x10000, lower-case. -/
def hex4 (n : Nat) : List Char :=
  let d := fun k => if k < 10 then Char.ofNat (48 + k) else Char.ofNat (87 + k)
  [d (n / 4096 % 16), d (n / 256 % 16), d (n / 16 % 16), d (n % 16)]

/-- Modelled from the spec: JSON string escaping for one character — quote and
backslash get a backslash escape, the named control characters get their short
escapes, other control characters get a `u`-escape, and everything else passes
through unchanged. -/
def escapeChar (c : Char) : List Char :=
  if c = '"' then ['\\', '"']
  else if c = '\\' then ['\\', '\\']
  else if c = '\n' then ['\\', 'n']
  else if c = '\r' then ['\\', 'r']
  else if c = '\t' then ['\\', 't']
  else if c.toNat < 32 then '\\' :: 'u' :: hex4 c.toNat
  else [c]

/-- Escape every character of a JSON string body. -/
def escapeList (cs : List Char) : List Char :=
  cs.foldr (fun c acc => escapeChar c ++ acc) []

mutual

/-- Modelled from the spec: the JSON encoder — lowercase literal tokens for
`null`, `true` and `false`, the canonical decimal form for numbers, escaped
quoted strings, and arrays/objects rendered in input order. -/
def encodeVal : JsonValue → List Char
  | .null => "null".data
  | .bool true => "true".data
  | .bool false => "false".data
  | .num n => (toString n).data
  | .str s => '"' :: (escapeList s.data ++ ['"'])
  | .arr xs => '[' :: (encodeElems xs ++ [']'])
  | .obj fs => '{' :: (encodeFields fs ++ ['}'])

/-- Array elements rendered in order, comma-separated. -/
def encodeElems : List JsonValue → List Char
  | [] => []
  | [x] => encodeVal x
  | x :: y :: rest => encodeVal x ++ ',' :: encodeElems (y :: rest)

/-- Object fields rendered in insertion order, comma-separated. -/
def encodeFields : List (String × JsonValue) → List Char
  | [] => []
  | [(k, v)] => '"' :: (escapeList k.data ++ '"' :: ':' :: encodeVal v)
  | (k, v) :: f :: rest =>
    '"' :: (escapeList k.data ++ '"' :: ':' ::
      (encodeVal v ++ ',' :: encodeFields (f :: rest)))

end

/-- Serialize a JSON value to a string. -/
def encode (v : JsonValue) : String := String.mk (encodeVal v)

/-- The rendering of one object field, used to state order preservation. -/
def encodeField (kv : String × JsonValue) : List Char :=
  '"' :: (escapeList kv.1.data ++ '"' :: ':' :: encodeVal kv.2)

/-! ## Requests and the request parser

Modelled from the spec: spec.md section 3 (Request data model) and
section 4.2 (Request Parser contract and algorithm). -/

/-- Modelled from the spec: a parsed HTTP request — method, path, query
parameters, headers with case-insensitive (stored lower-cased) keys, and the
body bytes. -/
structure Request where
  method : String
  path : String
  queryParams : List (String × String)
  headers : List (String × String)
  body : String

/-- Modelled from the spec: the structural violations that make the parser
reject an inbound byte stream. -/
inductive ParseError where
  | incompleteHeaders
  | badRequestLine
  | missingMethod
  | missingPath
  | badVersion
  | malformedHeader
  | badContentLength
  | bodyTooLarge
  | bodyTooShort
deriving DecidableEq

/-- The only request-line version the minimal core accepts. -/
def httpVersion : String := "HTTP/1.1"

/-- Modelled from the spec: parse the request line into method, path and
version, rejecting a missing method, a missing path, a line that does not
split into three space-separated parts, and an unsupported version. -/
def parseRequestLine (line : String) : Except ParseError (String × String × String) :=
  match splitAtFirst ' ' line.data with
  | none => .error .badRequestLine
  | some (m, rest) =>
    if m = [] then .error .missingMethod
    else
      match splitAtFirst ' ' rest with
      | none => .error .badRequestLine
      | some (p, v) =>
        if p = [] then .error .missingPath
        else if String.mk v ≠ httpVersion then .error .badVersion
        else .ok (String.mk m, String.mk p, String.mk v)

/-- Modelled from the spec: parse one header line at its first colon; the key
is lower-cased (case-insensitive keys) and the value trimmed; a line without a
colon is malformed. -/
def parseHeaderLine (line : String) : Except ParseError (String × String) :=
  match splitAtFirst ':' line.data with
  | none => .error .malformedHeader
  | some (k, v) => .ok (String.mk (lowerList k), String.mk (trimList v))

/-- Parse every header line, stopping at the first malformed one. -/
def parseHeaders : List (List Char) → Except ParseError (List (String × String))
  | [] => .ok []
  | l :: ls => do
    let kv ← parseHeaderLine (String.mk l)
    let rest ← parseHeaders ls
    .ok (kv :: rest)

/-- Look a key up in a header mapping, case-insensitively. -/
def headerLookup (headers : List (String × String)) (k : String) : Option String :=
  (headers.find? (fun h => h.1 == String.mk (lowerList k.data))).map Prod.snd

/-- Modelled from the spec: the declared body length — absent means zero, a
non-numeric value is rejected. -/
def getContentLength (headers : List (String × String)) : Except ParseError Nat :=
  match headerLookup headers "Content-Length" with
  | none => .ok 0
  | some v =>
    match parseNatDigits v.data with
    | some n => .ok n
    | none => .error .badContentLength

/-- Modelled from the spec: read exactly the declared number of body bytes —
a declared length over the configured maximum is rejected rather than read,
and a stream that ends before delivering the declared length is rejected. -/
def readBody (maxBody n : Nat) (rest : List Char) : Except ParseError (List Char) :=
  if maxBody < n then .error .bodyTooLarge
  else if rest.length < n then .error .bodyTooShort
  else .ok (rest.take n)

/-- Split a request target into its path and parsed query parameters. -/
def splitTarget (cs : List Char) : String × List (String × String) :=
  match splitAtFirst '?' cs with
  | none => (String.mk cs, [])
  | some (p, q) =>
    (String.mk p,
      (splitAllChar '&' q).map (fun part =>
        match splitAtFirst '=' part with
        | none => (String.mk part, "")
        | some (k, v) => (String.mk k, String.mk v)))

/-- Modelled from the spec: the request parser — find the CRLF CRLF header
terminator, parse the request line and the header lines, then read the body
according to `Content-Length`, bounded by `maxBody`.  Every failure is a
`ParseError` value; the function is total. -/
def parseRequest (maxBody : Nat) (input : String) : Except ParseError Request :=
  match splitHeaderBody input.data with
  | none => .error .incompleteHeaders
  | some (head, rest) =>
    match splitCRLF head with
    | [] => .error .badRequestLine
    | reqLine :: headerLines => do
      let mpv ← parseRequestLine (String.mk reqLine)
      let headers ← parseHeaders headerLines
      let n ← getContentLength headers
      let body ← readBody maxBody n rest
      let pq := splitTarget mpv.2.1.data
      .ok { method := mpv.1, path := pq.1, queryParams := pq.2,
            headers := headers, body := String.mk body }

/-- The configured maximum body size used by the example server model. -/
def defaultMaxBody : Nat := 1048576

/-! ## Responses and the response builder

Modelled from the spec: spec.md section 3 (Response data model) and
section 4.3 (Response Builder contract). -/

/-- Modelled from the spec: a response under construction — status (default
200), headers, body. -/
structure Response where
  status : Nat
  headers : List (String × String)
  body : String

/-- The fresh empty response a handler starts from. -/
def emptyResponse : Response := { status := 200, headers := [], body := "" }

/-- Set a header, overwriting an existing binding of the same key. -/
def Response.setHeader (r : Response) (k v : String) : Response :=
  { r with headers := r.headers.filter (fun h => !(h.1 == k)) ++ [(k, v)] }

/-- Modelled from the spec: `Response.json` builds a flat JSON object from the
ordered pairs, sets the body to its encoding, and sets `Content-Type:
application/json` and `Content-Length` to the body's byte length. -/
def Response.json (r : Response) (pairs : List (String × JsonValue)) : Response :=
  let b := encode (JsonValue.obj pairs)
  { (r.setHeader "Content-Type" "application/json").setHeader
      "Content-Length" (toString (utf8Length b)) with
    body := b }

/-- The reason phrase for each status the minimal core produces. -/
def statusText : Nat → String
  | 200 => "OK"
  | 400 => "Bad Request"
  | 404 => "Not Found"
  | 500 => "Internal Server Error"
  | _ => ""

/-- Modelled from the spec: serialize a response to wire bytes — status line,
header block (with `Content-Length` computed from the body length unless
already set), blank line, body. -/
def buildResponse (r : Response) : String :=
  let hs :=
    if (r.headers.find? (fun h => h.1 == "Content-Length")).isSome then r.headers
    else r.headers ++ [("Content-Length", toString (utf8Length r.body))]
  "HTTP/1.1 " ++ toString r.status ++ " " ++ statusText r.status ++ "\r\n" ++
    String.join (hs.map (fun h => h.1 ++ ": " ++ h.2 ++ "\r\n")) ++ "\r\n" ++ r.body

/-! ## Router

Modelled from the spec: spec.md section 4.1 (Router contract). -/

/-- Modelled from the spec: a handler is invoked with the request and a
response to populate; a failing handler surfaces an internal error detail. -/
def Handler := Request → Response → Except String Response

/-- Modelled from the spec: a route binds a method and a normalized path to a
handler. -/
structure Route where
  method : String
  path : String
  handler : Handler

/-- Modelled from the spec: path normalization strips a trailing slash except
for the root path. -/
def normalizePath (p : String) : String :=
  if 1 < p.data.length ∧ p.data.getLast? = some '/' then String.mk p.data.dropLast
  else p

/-- Modelled from the spec: `register` stores a route under the normalized
path, overwriting any existing binding for the same method and normalized
path (last registration wins). -/
def register (rt : List Route) (m p : String) (h : Handler) : List Route :=
  ⟨m, normalizePath p, h⟩ ::
    rt.filter (fun r => !(r.method == m && r.path == normalizePath p))

/-- Modelled from the spec: `match` normalizes the path, then compares the
method case-sensitively and the normalized path literally; no match is the
sentinel `none`, never an exception. -/
def matchRoute (rt : List Route) (m p : String) : Option Handler :=
  (rt.find? (fun r => r.method == m && r.path == normalizePath p)).map Route.handler

/-- At most one binding per (method, path) pair is active in a route table. -/
def routeKeysDistinct (rt : List Route) : Prop :=
  rt.Pairwise (fun a b => ¬(a.method = b.method ∧ a.path = b.path))

/-! ## The example application and connection dispatch -/

/-- Modelled from the spec: an `App` owns the route table. -/
structure App where
  routes : List Route

/-- Modelled from the spec: `App.get` registers a handler for method `GET`. -/
def App.get (a : App) (p : String) (h : Handler) : App :=
  ⟨register a.routes "GET" p h⟩

/-- The `GET /` handler of `src/main.cpp`: it ignores its request and fills
the response with the JSON object holding the pair `message`/`Hello world`. -/
def rootHandler : Handler :=
  fun _req res => .ok (res.json [("message", JsonValue.str "Hello world")])

/-- The example application of `src/main.cpp`: a default-constructed app with
the single `GET /` route. -/
def exampleApp : App := App.get ⟨[]⟩ "/" rootHandler

/-- The fixed error response for each failure class (internal details are not
included in the body). -/
def errorResponse (status : Nat) (msg : String) : Response :=
  { status := status, headers := [("Content-Type", "text/plain")], body := msg }

/-- Modelled from the spec: per-connection dispatch — a parse failure yields
the 400 response, an unmatched method/path the 404 response, a handler
failure is caught and converted to the 500 response whose body is a fixed
phrase independent of the internal detail; otherwise the handler's response
is returned.  The function is total: no failure escapes. -/
def handleConnection (maxBody : Nat) (rt : List Route) (input : String) : Response :=
  match parseRequest maxBody input with
  | .error _ => errorResponse 400 "Bad Request"
  | .ok req =>
    match matchRoute rt req.method req.path with
    | none => errorResponse 404 "Not Found"
    | some h =>
      match h req emptyResponse with
      | .ok res => res
      | .error _ => errorResponse 500 "Internal Server Error"

/-- Literal lookup in a response header list (response header keys are stored
as written). -/
def findHeader (headers : List (String × String)) (k : String) : Option String :=
  (headers.find? (fun h => h.1 == k)).map Prod.snd

/-- The raw bytes of the specification's end-to-end scenario request. -/
def scenarioInput : String := "GET / HTTP/1.1\r\nHost: x\r\n\r\n"

/-- The response the example application produces for the scenario request. -/
def scenarioResponse : Response :=
  handleConnection defaultMaxBody exampleApp.routes scenarioInput

/-- A handler that always fails with an internal detail, used to exercise the
500 conversion at the dispatch boundary. -/
def failingHandler : Handler := fun _req _res => .error "boom"

end Vix

namespace Vix

/-! ## Helper lemmas -/

/-- `splitAtFirst` finds nothing when the character never occurs. -/
theorem splitAtFirst_of_not_mem (c : Char) :
    ∀ cs : List Char, (∀ x ∈ cs, x ≠ c) → splitAtFirst c cs = none
  | [], _ => rfl
  | x :: rest, h => by
    have hx : ¬(x = c) := h x (List.mem_cons_self x rest)
    simp [splitAtFirst, hx,
      splitAtFirst_of_not_mem c rest (fun y hy => h y (List.mem_cons_of_mem x hy))]

/-- `splitAtFirst` splits exactly at the first occurrence of the character. -/
theorem splitAtFirst_append (c : Char) :
    ∀ xs ys : List Char, (∀ x ∈ xs, x ≠ c) →
      splitAtFirst c (xs ++ c :: ys) = some (xs, ys)
  | [], ys, _ => by simp [splitAtFirst]
  | x :: xs, ys, h => by
    have hx : ¬(x = c) := h x (List.mem_cons_self x xs)
    simp [splitAtFirst, hx,
      splitAtFirst_append c xs ys (fun y hy => h y (List.mem_cons_of_mem x hy))]

/-- A freshly registered route is found by a match on the same method and
path. -/
theorem matchRoute_register (rt : List Route) (m p : String) (h : Handler) :
    matchRoute (register rt m p h) m p = some h := by
  have hpred :
      ((fun r => r.method == m && r.path == normalizePath p)
        (⟨m, normalizePath p, h⟩ : Route)) = true := by simp
  simp [matchRoute, register, List.find?_cons_of_pos _ hpred]

/-- Array elements are rendered in input order, comma-separated. -/
theorem encodeElems_eq :
    ∀ xs : List JsonValue, encodeElems xs = joinSep [','] (xs.map encodeVal)
  | [] => rfl
  | [x] => rfl
  | x :: y :: rest => by
    simp [encodeElems, joinSep, encodeElems_eq (y :: rest)]

/-- Object fields are rendered in insertion order, comma-separated. -/
theorem encodeFields_eq :
    ∀ fs : List (String × JsonValue), encodeFields fs = joinSep [','] (fs.map encodeField)
  | [] => rfl
  | [(k, v)] => rfl
  | (k, v) :: f :: rest => by
    simp [encodeFields, joinSep, encodeField, encodeFields_eq (f :: rest)]

/-! ## Claims -/

/-- C1: for the example application of `src/main.cpp` (handler calling
`response.json` with the pair `message`/`Hello world` registered for
`GET /`), the request `GET / HTTP/1.1 CRLF Host: x CRLF CRLF` produces a
response whose status line is `HTTP/1.1 200 OK`, whose `Content-Type` header
is `application/json`, and whose body is exactly the JSON object with that
single pair. -/
theorem claim_C1 :
    (buildResponse scenarioResponse).data.take 17 = ("HTTP/1.1 200 OK" ++ "\r\n").data
    ∧ findHeader scenarioResponse.headers "Content-Type" = some "application/json"
    ∧ scenarioResponse.body = "\x7b\"message\":\"Hello world\"\x7d"
    ∧ scenarioResponse.status = 200 := by
  refine ⟨by decide, by decide, by decide, by decide⟩

/-- C2: `Response.json` applied to the single ordered pair
`message`/`Hello world` yields a response with `Content-Type:
application/json`, body exactly the JSON object with that pair, and
`Content-Length` equal to the byte length of that body. -/
theorem claim_C2 :
    findHeader (Response.json emptyResponse
        [("message", JsonValue.str "Hello world")]).headers "Content-Type"
      = some "application/json"
    ∧ (Response.json emptyResponse
        [("message", JsonValue.str "Hello world")]).body
      = "\x7b\"message\":\"Hello world\"\x7d"
    ∧ findHeader (Response.json emptyResponse
        [("message", JsonValue.str "Hello world")]).headers "Content-Length"
      = some (toString (utf8Length (Response.json emptyResponse
          [("message", JsonValue.str "Hello world")]).body)) := by
  refine ⟨by decide, by decide, by decide⟩

/-- C10: the `GET /` handler registered by the example program never reads
its request argument — dispatched from the same initial response, any two
requests produce identical responses. -/
theorem claim_C10 :
    ∀ (r₁ r₂ : Request) (res : Response), rootHandler r₁ res = rootHandler r₂ res :=
  fun _ _ _ => rfl

/-- Witness for C10 at two concrete distinct requests. -/
theorem claim_C10_witness :
    rootHandler ⟨"GET", "/", [], [], ""⟩ emptyResponse
      = rootHandler ⟨"POST", "/other", [], [("host", "y")], "abc"⟩ emptyResponse :=
  claim_C10 _ _ emptyResponse

/-- C3: matching normalizes the path (strips a trailing slash except for the
root), compares the method case-sensitively and the normalized path
literally, and an unmatched pair yields the sentinel `none` — `matchRoute` is
a total function, so no exception is possible. -/
theorem claim_C3 :
    (∀ p : String, 1 < p.data.length → p.data.getLast? = some '/' →
      (normalizePath p).data = p.data.dropLast)
    ∧ normalizePath "/" = "/"
    ∧ (∀ (rt : List Route) (m p : String),
        (∀ r ∈ rt, ¬(r.method = m ∧ r.path = normalizePath p)) →
        matchRoute rt m p = none)
    ∧ (∀ (rt : List Route) (m p : String) (h : Handler),
        matchRoute rt m p = some h →
        ∃ r ∈ rt, r.method = m ∧ r.path = normalizePath p ∧ r.handler = h) := by
  refine ⟨?_, by decide, ?_, ?_⟩
  · intro p h1 h2
    have h1' : 1 < p.length := h1
    simp [normalizePath, h1', h2]
  · intro rt m p hall
    have hfind : rt.find? (fun r => r.method == m && r.path == normalizePath p) = none := by
      refine List.find?_eq_none.mpr (fun r hr => ?_)
      simp only [Bool.and_eq_true, beq_iff_eq]
      exact hall r hr
    simp [matchRoute, hfind]
  · intro rt m p h hm
    rcases Option.map_eq_some'.mp hm with ⟨r, hfind, hh⟩
    have hmem := List.mem_of_find?_eq_some hfind
    have hpred := List.find?_some hfind
    simp only [Bool.and_eq_true, beq_iff_eq] at hpred
    exact ⟨r, hmem, hpred.1, hpred.2, hh⟩

/-- Witness for C3: normalization strips the trailing slash of a concrete
path, an unregistered method on the example route table yields `none`, and a
successful concrete match comes from a stored route. -/
theorem claim_C3_witness :
    (normalizePath "/abc/").data = "/abc/".data.dropLast
    ∧ matchRoute exampleApp.routes "POST" "/" = none
    ∧ ∃ r ∈ exampleApp.routes,
        r.method = "GET" ∧ r.path = normalizePath "/" ∧ r.handler = rootHandler :=
  ⟨claim_C3.1 "/abc/" (by decide) (by decide),
   claim_C3.2.2.1 exampleApp.routes "POST" "/" (by decide),
   claim_C3.2.2.2 exampleApp.routes "GET" "/" rootHandler rfl⟩

/-- C4: the route table keeps at most one active binding per (method,
normalized path) pair — the empty table satisfies the invariant and
`register` preserves it — and re-registering the same method and path
replaces the earlier binding, so a subsequent match returns the later
handler. -/
theorem claim_C4 :
    (∀ (rt : List Route) (m p : String) (h₁ h₂ : Handler),
      matchRoute (register (register rt m p h₁) m p h₂) m p = some h₂)
    ∧ routeKeysDistinct []
    ∧ (∀ (rt : List Route) (m p : String) (h : Handler),
        routeKeysDistinct rt → routeKeysDistinct (register rt m p h)) := by
  refine ⟨?_, List.Pairwise.nil, ?_⟩
  · intro rt m p h₁ h₂
    exact matchRoute_register _ m p h₂
  · intro rt m p h hdist
    refine List.Pairwise.cons ?_ (hdist.filter _)
    intro b hb
    rcases (List.mem_filter.mp hb) with ⟨-, hpred⟩
    simp only [Bool.not_eq_eq_eq_not, Bool.not_true, Bool.and_eq_false_imp,
      beq_iff_eq] at hpred
    intro hc
    rcases hc with ⟨e1, e2⟩
    exact absurd (hpred e1.symm) (by simp [e2.symm])

/-- Witness for C4: re-registering `GET /` over the failing handler makes the
match return the root handler, and registering on the empty table yields a
table satisfying the invariant. -/
theorem claim_C4_witness :
    matchRoute (register (register [] "GET" "/" failingHandler) "GET" "/" rootHandler)
        "GET" "/" = some rootHandler
    ∧ routeKeysDistinct (register [] "GET" "/" rootHandler) :=
  ⟨claim_C4.1 [] "GET" "/" failingHandler rootHandler,
   claim_C4.2.2 [] "GET" "/" rootHandler List.Pairwise.nil⟩

/-- C5: the request parser is a total function into `Except` — every inbound
byte stream yields either a request or a `ParseError`, never a crash — and
each structural violation is rejected: a request line with a missing method
or a missing path, a header line without a colon, a declared body length over
the configured maximum (rejected rather than read), and a body shorter than
the declared length. -/
theorem claim_C5 :
    (∀ (maxB : Nat) (input : String),
        (∃ r, parseRequest maxB input = .ok r) ∨ (∃ e, parseRequest maxB input = .error e))
    ∧ (∀ rest : List Char,
        parseRequestLine (String.mk (' ' :: rest)) = .error .missingMethod)
    ∧ (∀ (m rest : List Char), m ≠ [] → (∀ x ∈ m, x ≠ ' ') →
        parseRequestLine (String.mk (m ++ ' ' :: ' ' :: rest)) = .error .missingPath)
    ∧ (∀ line : String, (∀ x ∈ line.data, x ≠ ':') →
        parseHeaderLine line = .error .malformedHeader)
    ∧ (∀ (maxB n : Nat) (rest : List Char), maxB < n →
        readBody maxB n rest = .error .bodyTooLarge)
    ∧ (∀ (maxB n : Nat) (rest : List Char), n ≤ maxB → rest.length < n →
        readBody maxB n rest = .error .bodyTooShort) := by
  refine ⟨?_, ?_, ?_, ?_, ?_, ?_⟩
  · intro maxB input
    cases h : parseRequest maxB input with
    | ok r => exact .inl ⟨r, rfl⟩
    | error e => exact .inr ⟨e, rfl⟩
  · intro rest
    simp [parseRequestLine, splitAtFirst]
  · intro m rest hm hns
    have h1 : splitAtFirst ' ' (m ++ ' ' :: (' ' :: rest)) = some (m, ' ' :: rest) :=
      splitAtFirst_append ' ' m (' ' :: rest) hns
    simp [parseRequestLine, h1, hm, splitAtFirst]
  · intro line h
    simp [parseHeaderLine, splitAtFirst_of_not_mem ':' line.data h]
  · intro maxB n rest h
    simp [readBody, h]
  · intro maxB n rest h1 h2
    have h3 : ¬(maxB < n) := by omega
    simp [readBody, h3, h2]

/-- Witness for C5 at concrete inputs: the scenario request parses one way or
the other, a request line starting with a space has no method, a double space
leaves an empty path, a colon-free header line is malformed, a declared
length of 11 over a maximum of 10 is too large, and a 2-byte stream cannot
hold a declared 3-byte body. -/
theorem claim_C5_witness :
    ((∃ r, parseRequest defaultMaxBody scenarioInput = .ok r)
      ∨ (∃ e, parseRequest defaultMaxBody scenarioInput = .error e))
    ∧ parseRequestLine (String.mk (' ' :: "x".data)) = .error .missingMethod
    ∧ parseRequestLine (String.mk ("GET".data ++ ' ' :: ' ' :: "HTTP/1.1".data))
      = .error .missingPath
    ∧ parseHeaderLine "Host x" = .error .malformedHeader
    ∧ readBody 10 11 [] = .error .bodyTooLarge
    ∧ readBody 10 3 "ab".data = .error .bodyTooShort :=
  ⟨claim_C5.1 defaultMaxBody scenarioInput,
   claim_C5.2.1 "x".data,
   claim_C5.2.2.1 "GET".data "HTTP/1.1".data (by decide) (by decide),
   claim_C5.2.2.2.1 "Host x" (by decide),
   claim_C5.2.2.2.2.1 10 11 [] (by decide),
   claim_C5.2.2.2.2.2 10 3 "ab".data (by decide) (by decide)⟩

/-- C6: per-connection dispatch maps each failure class to exactly one
status and, being a total function, never propagates a failure out of the
accept loop: a parse error yields the 400 response, an unmatched method/path
the 404 response, and a handler failure is caught and converted to the 500
response, whose value — body included — is a fixed phrase independent of the
internal error detail `d`. -/
theorem claim_C6 :
    (∀ (maxB : Nat) (rt : List Route) (input : String) (e : ParseError),
        parseRequest maxB input = .error e →
        handleConnection maxB rt input = errorResponse 400 "Bad Request")
    ∧ (∀ (maxB : Nat) (rt : List Route) (input : String) (req : Request),
        parseRequest maxB input = .ok req →
        matchRoute rt req.method req.path = none →
        handleConnection maxB rt input = errorResponse 404 "Not Found")
    ∧ (∀ (maxB : Nat) (rt : List Route) (input : String) (req : Request)
        (h : Handler) (d : String),
        parseRequest maxB input = .ok req →
        matchRoute rt req.method req.path = some h →
        h req emptyResponse = .error d →
        handleConnection maxB rt input = errorResponse 500 "Internal Server Error")
    ∧ (errorResponse 400 "Bad Request").status = 400
    ∧ (errorResponse 404 "Not Found").status = 404
    ∧ (errorResponse 500 "Internal Server Error").status = 500 := by
  refine ⟨?_, ?_, ?_, rfl, rfl, rfl⟩
  · intro maxB rt input e hp
    simp [handleConnection, hp]
  · intro maxB rt input req hp hm
    simp [handleConnection, hp, hm]
  · intro maxB rt input req h d hp hm hh
    simp [handleConnection, hp, hm, hh]

/-- Witness for C6 at concrete connections: a stream without a header
terminator gets the 400 response, a request for an unregistered path on the
example table gets the 404 response, and a request routed to the failing
handler gets the fixed 500 response. -/
theorem claim_C6_witness :
    handleConnection defaultMaxBody exampleApp.routes "x" = errorResponse 400 "Bad Request"
    ∧ handleConnection defaultMaxBody exampleApp.routes "GET /nope HTTP/1.1\r\n\r\n"
      = errorResponse 404 "Not Found"
    ∧ handleConnection defaultMaxBody (register [] "GET" "/fail" failingHandler)
        "GET /fail HTTP/1.1\r\n\r\n"
      = errorResponse 500 "Internal Server Error" :=
  ⟨claim_C6.1 defaultMaxBody exampleApp.routes "x" .incompleteHeaders rfl,
   claim_C6.2.1 defaultMaxBody exampleApp.routes "GET /nope HTTP/1.1\r\n\r\n"
     ⟨"GET", "/nope", [], [], ""⟩ rfl rfl,
   claim_C6.2.2.1 defaultMaxBody (register [] "GET" "/fail" failingHandler)
     "GET /fail HTTP/1.1\r\n\r\n" ⟨"GET", "/fail", [], [], ""⟩ failingHandler "boom"
     rfl rfl rfl⟩

/-- C8: the JSON encoder escapes quote, backslash and control characters and
passes other characters through unchanged, renders `null`/`true`/`false` as
literal lowercase tokens, renders numbers in the canonical decimal form, and
serializes objects and arrays by rendering every element in input order —
nothing is dropped or reordered. -/
theorem claim_C8 :
    escapeChar '"' = ['\\', '"']
    ∧ escapeChar '\\' = ['\\', '\\']
    ∧ (∀ c : Char, c.toNat < 32 → (escapeChar c).head? = some '\\')
    ∧ (∀ c : Char, c ≠ '"' → c ≠ '\\' → 32 ≤ c.toNat → escapeChar c = [c])
    ∧ (encode .null = "null" ∧ encode (.bool true) = "true"
        ∧ encode (.bool false) = "false")
    ∧ (∀ n : Int, encode (.num n) = toString n)
    ∧ (∀ fs : List (String × JsonValue),
        encodeVal (.obj fs) = '{' :: (joinSep [','] (fs.map encodeField) ++ ['}']))
    ∧ (∀ xs : List JsonValue,
        encodeVal (.arr xs) = '[' :: (joinSep [','] (xs.map encodeVal) ++ [']'])) := by
  refine ⟨rfl, rfl, ?_, ?_, ⟨rfl, rfl, rfl⟩, fun n => rfl, ?_, ?_⟩
  · intro c h
    simp only [escapeChar]
    split_ifs <;> simp_all
  · intro c h1 h2 h3
    have n3 : c ≠ '\n' := by intro e; subst e; exact absurd h3 (by decide)
    have n4 : c ≠ '\x0d' := by intro e; subst e; exact absurd h3 (by decide)
    have n5 : c ≠ '\t' := by intro e; subst e; exact absurd h3 (by decide)
    have n6 : ¬(c.toNat < 32) := by omega
    simp [escapeChar, h1, h2, n3, n4, n5, n6]
  · intro fs
    simp [encodeVal, encodeFields_eq]
  · intro xs
    simp [encodeVal, encodeElems_eq]

/-- Witness for C8: the BEL control character is escaped with a leading
backslash, and a plain letter passes through unchanged. -/
theorem claim_C8_witness :
    (escapeChar (Char.ofNat 7)).head? = some '\\'
    ∧ escapeChar 'a' = ['a'] :=
  ⟨claim_C8.2.2.1 (Char.ofNat 7) (by decide),
   claim_C8.2.2.2.1 'a' (by decide) (by decide) (by decide)⟩

end Vix
